import Mathlib

/-!
Verification development for the FireDownload download-queue core
(src/FireDownload.py).  The Python source is shallowly embedded: pure
helpers become Lean functions, the scheduler (`DownloadManager`) becomes a
state-transformer over an explicit `ManagerState`, and the worker retry
loop (`DownloadWorker.run`) becomes a recursion over an oracle of
per-attempt outcomes.  Machine reals used by the progress computation are
modelled with `ℚ`.
-/

namespace FireDownload

/-! ## Character-list string primitives

Python string operations used by `Utils.validate_url` (line 150-167),
embedded over `List Char` so that everything reduces by kernel
computation. -/

/-- Tests whether the first list is an initial segment of the second
(the test Python performs at each scan position of `str.replace`). -/
def leadsWith : List Char → List Char → Bool
  | [], _ => true
  | _ :: _, [] => false
  | p :: ps, c :: cs => p == c && leadsWith ps cs

/-- Tests whether `pat` occurs as a contiguous subsequence of the second
argument: the Python membership test `pat in s` on strings. -/
def containsSeq (pat : List Char) : List Char → Bool
  | [] => leadsWith pat []
  | c :: rest => leadsWith pat (c :: rest) || containsSeq pat rest

/-- Worker for `removeOccurrences`: scans left to right; the counter is
the number of characters still to be dropped from a match already
recognised. -/
def removeOccGo (pat : List Char) : List Char → ℕ → List Char
  | [], _ => []
  | _ :: rest, k + 1 => removeOccGo pat rest k
  | c :: rest, 0 =>
    if leadsWith pat (c :: rest) && decide (0 < pat.length) then
      removeOccGo pat rest (pat.length - 1)
    else
      c :: removeOccGo pat rest 0

/-- Python `s.replace(pat, "")`: removes every non-overlapping occurrence
of `pat`, scanning left to right. -/
def removeOccurrences (pat l : List Char) : List Char :=
  removeOccGo pat l 0

/-! ## Model of `urllib.parse.urlparse`

Modelled from the Python standard library (an external collaborator of
this code): `urlparse` splits a leading `scheme:` when the text before the
first colon is non-empty, starts with a letter, and contains only
letters, digits, `+`, `-`, `.`; the scheme is lowercased.  The network
location follows a leading `//` and extends to the first `/`, `?` or
`#`.  Only the `scheme` and `netloc` fields are consumed by the
source. -/

/-- Characters allowed in a URL scheme by `urlparse`. -/
def isSchemeChar (c : Char) : Bool :=
  c.isAlpha || c.isDigit || c == '+' || c == '-' || c == '.'

/-- Splits a character list at the first colon, returning the parts
before and after it, or `none` when there is no colon. -/
def splitAtColon : List Char → Option (List Char × List Char)
  | [] => none
  | c :: rest =>
    if c == ':' then some ([], rest)
    else
      match splitAtColon rest with
      | some (a, b) => some (c :: a, b)
      | none => none

/-- Splits off the URL scheme per `urlparse`: result is `(scheme, rest)`,
with `scheme = []` when no valid scheme is present. -/
def parseSchemeRest (l : List Char) : List Char × List Char :=
  match splitAtColon l with
  | some (before, after) =>
    match before with
    | [] => ([], l)
    | b :: bs =>
      if b.isAlpha && (b :: bs).all isSchemeChar then
        ((b :: bs).map Char.toLower, after)
      else ([], l)
  | none => ([], l)

/-- The `netloc` of the remainder after the scheme: present only after a
leading `//`, extending to the first `/`, `?` or `#`. -/
def netlocOf : List Char → List Char
  | '/' :: '/' :: rest => rest.takeWhile (fun c => !(c == '/' || c == '?' || c == '#'))
  | _ => []

/-! ## Config (src/FireDownload.py lines 41-71) -/

namespace Config

/-- MAX_CONCURRENT_DOWNLOADS (line 47). -/
def MAX_CONCURRENT_DOWNLOADS : ℕ := 5

/-- SUPPORTED_SITES (lines 52-67): platform name mapped to its domain
list, in source order. -/
def SUPPORTED_SITES : List (String × List String) :=
  [("YouTube", ["youtube.com", "youtu.be"]),
   ("TikTok", ["tiktok.com", "vm.tiktok.com"]),
   ("Instagram", ["instagram.com"]),
   ("Twitter", ["twitter.com", "x.com"]),
   ("Twitch", ["twitch.tv", "clips.twitch.tv"]),
   ("Reddit", ["reddit.com"]),
   ("Dailymotion", ["dailymotion.com"]),
   ("SoundCloud", ["soundcloud.com", "on.soundcloud.com"]),
   ("Vimeo", ["vimeo.com"]),
   ("Facebook", ["facebook.com"]),
   ("LinkedIn", ["linkedin.com"]),
   ("Rumble", ["rumble.com"]),
   ("Bilibili", ["bilibili.com"]),
   ("Odysee", ["odysee.com"])]

end Config

/-- Every configured domain, flattened across platforms. -/
def supportedDomains : List String :=
  (Config.SUPPORTED_SITES.map Prod.snd).flatten

/-! ## Utils.validate_url (lines 150-167) -/

/-- The cleaned domain computed at lines 157-158: the netloc lowercased,
then `"www."` removed everywhere, then `"m."` removed everywhere
(Python `str.replace` removes every occurrence, not only a leading
one). -/
def cleanDomain (rest : List Char) : List Char :=
  removeOccurrences "m.".data
    (removeOccurrences "www.".data ((netlocOf rest).map Char.toLower))

/-- Utils.validate_url (lines 150-167): scheme must be `http`/`https`;
then each platform's domain list is scanned and the URL is accepted when
some configured domain occurs as a substring of the cleaned netloc
(`d in clean_domain`, line 161). -/
def validate_url (url : String) : Bool :=
  let sr := parseSchemeRest url.data
  if !(sr.1 == "http".data || sr.1 == "https".data) then false
  else
    Config.SUPPORTED_SITES.any fun site =>
      site.2.any fun d => containsSeq d.data (cleanDomain sr.2)

/-- The validation rule exactly as claim C8 words it: scheme is http or
https, and the host — lowercased, with a leading `www.` and a leading
`m.` stripped as prefixes — matches (equals) one of the configured
allowed host patterns. -/
def claimed_validate_url (url : String) : Bool :=
  let sr := parseSchemeRest url.data
  (sr.1 == "http".data || sr.1 == "https".data) &&
  (let host := (netlocOf sr.2).map Char.toLower
   let host1 := if leadsWith "www.".data host then host.drop 4 else host
   let host2 := if leadsWith "m.".data host1 then host1.drop 2 else host1
   Config.SUPPORTED_SITES.any fun site => site.2.any fun d => d.data == host2)

/-! ## Data model (src/FireDownload.py lines 123-139) -/

/-- The status strings a DownloadItem can carry (line 127 comment). -/
inductive Status where
  | queued | downloading | paused | completed | error | cancelled
  deriving DecidableEq, Repr

/-- The recognised option keys of the options dict that the embedded
code consumes (quality and formats are opaque strings to this model). -/
structure Options where
  audio_only : Bool := false
  playlist : Bool := false
  verify : Bool := false
  proxy : Option String := none
  path : String := ""
  quality : String := "Best"
  deriving DecidableEq, Repr

/-- DownloadItem.__init__ (lines 123-139), restricted to the fields the
scheduler and worker logic read or write. -/
structure DownloadItem where
  url : String
  options : Options
  status : Status := .queued
  progress : ℚ := 0
  bytesDownloaded : ℤ := 0
  totalBytes : ℤ := 0
  deriving DecidableEq, Repr

/-- The pyqtSignal surface of DownloadManager (lines 974-982), as the
event vocabulary the embedded scheduler can emit. -/
inductive Event where
  | progressUpdated (url : String)
  | downloadComplete (url : String)
  | downloadError (url : String)
  | downloadPaused (url : String)
  | downloadResumed (url : String)
  | downloadCancelled (url : String)
  | queueUpdated (n : ℕ)
  | metadataReceived (url : String)
  | workerFinished (url : String)
  deriving DecidableEq, Repr

/-! ## Scheduler state (DownloadManager, lines 984-1085)

`download_queue` is a deque of DownloadItems (head = front);
`active_downloads` and `paused_downloads` are insertion-ordered dicts
from URL to worker handle, modelled as insertion-ordered lists of URLs
(`next(iter(d.keys()))` is the head).  `maxConcurrent` is the thread
pool's max thread count.  Emitted signals are accumulated in `events`. -/

structure ManagerState where
  queue : List DownloadItem
  active : List String
  paused : List String
  maxConcurrent : ℕ
  events : List Event
  deriving DecidableEq, Repr

/-- Python dict insertion `d[k] = v` restricted to the key set: an
existing key keeps its position, a new key goes to the end. -/
def dictInsert (k : String) (l : List String) : List String :=
  if k ∈ l then l else l ++ [k]

/-- The while loop of start_next_download (lines 1024-1031): while the
active dict is smaller than the thread-pool limit and the queue is
non-empty, pop the queue head, register its worker in the active dict,
and emit queue_updated with the remaining queue length. -/
def startNextAux (max : ℕ) :
    List DownloadItem → List String → List Event →
    List DownloadItem × List String × List Event
  | [], active, evs => ([], active, evs)
  | item :: rest, active, evs =>
    if active.length < max then
      startNextAux max rest (dictInsert item.url active)
        (evs ++ [.queueUpdated rest.length])
    else (item :: rest, active, evs)

/-- DownloadManager.start_next_download (lines 1024-1031). -/
def startNext (s : ManagerState) : ManagerState :=
  let r := startNextAux s.maxConcurrent s.queue s.active s.events
  { s with queue := r.1, active := r.2.1, events := r.2.2 }

/-- DownloadManager.add_download (lines 1002-1022): keep only the URLs
passing Utils.validate_url, append a fresh DownloadItem per valid URL to
the queue (UI-card creation omitted: it touches no scheduler state),
call start_next_download, then emit queue_updated with the final queue
length. -/
def addDownload (urls : List String) (options : Options) (s : ManagerState) :
    ManagerState :=
  let valid := urls.filter validate_url
  let s1 := { s with
    queue := s.queue ++ valid.map fun u => { url := u, options := options } }
  let s2 := startNext s1
  { s2 with events := s2.events ++ [.queueUpdated s2.queue.length] }

/-- DownloadManager.pause_download (lines 1033-1039): when the URL is in
the active dict, signal the worker (which emits download_paused), move
the entry from active to paused, and call start_next_download. -/
def pauseDownload (url : String) (s : ManagerState) : ManagerState :=
  if url ∈ s.active then
    startNext { s with
      active := s.active.erase url
      paused := dictInsert url s.paused
      events := s.events ++ [.downloadPaused url] }
  else s

/-- DownloadManager.resume_download (lines 1041-1050): when the URL is in
the paused dict, signal the worker (which emits download_resumed), move
the entry from paused to active; if the active dict now exceeds the
limit, force-pause the first-inserted active URL
(`next(iter(self.active_downloads.keys()))`, line 1050). -/
def resumeDownload (url : String) (s : ManagerState) : ManagerState :=
  if url ∈ s.paused then
    let s1 := { s with
      active := dictInsert url s.active
      paused := s.paused.erase url
      events := s.events ++ [.downloadResumed url] }
    if s1.maxConcurrent < s1.active.length then
      match s1.active with
      | [] => s1
      | first :: _ => pauseDownload first s1
    else s1
  else s

/-- DownloadManager.cancel_download (lines 1052-1064): an active URL is
cancelled (emitting download_cancelled), removed from the active dict,
and start_next_download runs; otherwise a paused URL is cancelled and
removed without admission; in every case the queue is then filtered of
items with that URL and queue_updated is emitted (the UI-list removal at
lines 1067-1073 touches no scheduler state). -/
def cancelDownload (url : String) (s : ManagerState) : ManagerState :=
  let s1 :=
    if url ∈ s.active then
      startNext { s with
        active := s.active.erase url
        events := s.events ++ [.downloadCancelled url] }
    else if url ∈ s.paused then
      { s with
        paused := s.paused.erase url
        events := s.events ++ [.downloadCancelled url] }
    else s
  let q := s1.queue.filter fun item => item.url ≠ url
  { s1 with queue := q, events := s1.events ++ [.queueUpdated q.length] }

/-- MainWindow.on_worker_finished (lines 1764-1767), the slot connected
to the worker_finished signal (line 1353): its body is `pass`, so the
scheduler state is untouched. -/
def onWorkerFinished (url : String) (s : ManagerState) : ManagerState := s

/-- DownloadManager.load_settings (lines 998-1000), reached from
MainWindow.save_settings (line 2344) after the concurrency spin-box
value is stored: sets the thread pool's max thread count to the new
value and nothing else. -/
def loadSettings (newMax : ℕ) (s : ManagerState) : ManagerState :=
  { s with maxConcurrent := newMax }

/-! ## Worker retry loop (DownloadWorker.run, lines 703-771)

The loop `while attempt < max_attempts and not success and not
self._is_cancelled` is embedded for the executions in which no cancel or
pause signal ever arrives (the flags are written by other threads; every
claim about the loop concerns an uninterrupted run) and in which FFmpeg,
when needed, is available.  What the external world does on each attempt
is an oracle `o : ℕ → AttemptOutcome` indexed by the 1-based attempt
number; one attempt is the whole try-block at lines 725-755. -/

/-- What a single attempt of the try-block does. -/
inductive AttemptOutcome where
  /-- extract_info or download raised (caught at line 756). -/
  | raises
  /-- download returned but the prepared file is missing or empty
  (line 741 test false). -/
  | emptyOutput
  /-- non-empty output file; the flag records whether `_verify_download`
  (lines 917-950) would raise for this file — file missing, zero size,
  or failed FFmpeg structural validation for non-audio output. -/
  | ok (verifyRaises : Bool)
  deriving DecidableEq, Repr

/-- Observable outcome of one DownloadWorker.run execution. -/
structure RunResult where
  status : Status
  completeEmitted : Bool
  errorEmitted : Bool
  finishedEmitted : Bool
  /-- The argument of each `time.sleep` call (line 760), in order. -/
  sleeps : List ℕ
  /-- Number of attempts performed. -/
  attempts : ℕ
  deriving DecidableEq, Repr

/-- max_attempts (line 719). -/
def maxAttempts : ℕ := 3

/-- The retry loop (lines 723-760) plus the epilogue (lines 762-771):
`fuel` is `maxAttempts - attempt`, so `fuel = 0` inside an iteration
means `attempt == max_attempts`, where line 758-759 re-raises into the
outer handler (status error, download_error emitted); otherwise a raise
sleeps `5 * attempt` (line 760) and retries.  An empty output retries
with no sleep (line 753-754).  A good output sets success, marks the
item completed and emits download_complete (lines 742-749); a
verify raise from line 752 lands in the same except-handler: re-raised
into the outer handler on the last attempt, otherwise it sleeps and the
loop then exits because success is already set.  Leaving the loop
without success raises RuntimeError (line 763) into the outer handler.
worker_finished is emitted in the finally block (line 771) on every
path. -/
def runGo (verify : Bool) (o : ℕ → AttemptOutcome) :
    ℕ → ℕ → List ℕ → RunResult
  | 0, attempt, sleeps =>
    { status := .error, completeEmitted := false, errorEmitted := true,
      finishedEmitted := true, sleeps := sleeps, attempts := attempt }
  | fuel + 1, attempt, sleeps =>
    let n := attempt + 1
    match o n with
    | .raises =>
      if fuel = 0 then
        { status := .error, completeEmitted := false, errorEmitted := true,
          finishedEmitted := true, sleeps := sleeps, attempts := n }
      else runGo verify o fuel n (sleeps ++ [5 * n])
    | .emptyOutput => runGo verify o fuel n sleeps
    | .ok verifyRaises =>
      if verify && verifyRaises then
        if fuel = 0 then
          { status := .error, completeEmitted := true, errorEmitted := true,
            finishedEmitted := true, sleeps := sleeps, attempts := n }
        else
          { status := .completed, completeEmitted := true,
            errorEmitted := false, finishedEmitted := true,
            sleeps := sleeps ++ [5 * n], attempts := n }
      else
        { status := .completed, completeEmitted := true,
          errorEmitted := false, finishedEmitted := true,
          sleeps := sleeps, attempts := n }

/-- DownloadWorker.run for an uninterrupted execution: `verify` is
`options.get('verify', False)` (line 751), `o` tells what the Fetcher
and filesystem do on each attempt. -/
def runWorker (verify : Bool) (o : ℕ → AttemptOutcome) : RunResult :=
  runGo verify o maxAttempts 0 []

/-! ## Progress callback (DownloadWorker._update_progress, lines 833-864) -/

/-- Values the progress hook writes on one tick. -/
structure ProgressResult where
  progress : ℚ
  speed : ℚ
  bytesDownloaded : ℤ
  totalBytes : ℤ
  /-- The denominator used for the speed computation (line 855). -/
  elapsedUsed : ℚ
  deriving DecidableEq, Repr

/-- The body of `_update_progress` reached when the hook reports status
`downloading` and the worker is not cancelled (guard at line 834, and
not cancelled again after any pause wait, line 838): `current` is
`d.get('downloaded_bytes', 0)`; `tb` and `est` are the hook's
`total_bytes` and `total_bytes_estimate` entries; the Python `or` at
line 842 falls through to the estimate (default 1) when `total_bytes` is
absent or 0, and line 845-846 clamps a non-positive total to 1.
Time values are rationals. -/
def updateProgress (current : ℤ) (tb est : Option ℤ) (lastBytes : ℤ)
    (now startTime : ℚ) : ProgressResult :=
  let total0 : ℤ :=
    match tb with
    | some t => if t = 0 then est.getD 1 else t
    | none => est.getD 1
  let total : ℤ := if total0 ≤ 0 then 1 else total0
  let elapsed : ℚ := max (1 / 10) (now - startTime)
  { progress := min 100 (max 0 ((current : ℚ) / (total : ℚ) * 100))
    speed := ((current : ℚ) - (lastBytes : ℚ)) / elapsed
    bytesDownloaded := current
    totalBytes := total
    elapsedUsed := elapsed }

/-! ## Concrete fixtures -/

/-- A valid URL (YouTube is a configured platform). -/
def urlA : String := "https://youtube.com/a"

/-- A second valid URL. -/
def urlB : String := "https://youtube.com/b"

/-- A third valid URL. -/
def urlC : String := "https://youtube.com/c"

/-- Default options. -/
def optsD : Options := {}

/-- A freshly constructed DownloadItem for a URL with default options. -/
def itemOf (u : String) : DownloadItem := { url := u, options := optsD }

/-! ## Helper lemmas about the scheduler -/

/-- Dict insertion keeps existing members. -/
lemma mem_dictInsert_of_mem {x k : String} {l : List String} (h : x ∈ l) :
    x ∈ dictInsert k l := by
  unfold dictInsert
  split <;> simp [h]

/-- Dict insertion makes the key a member. -/
lemma self_mem_dictInsert (k : String) (l : List String) :
    k ∈ dictInsert k l := by
  unfold dictInsert
  split
  · assumption
  · simp

/-- Dict insertion of a fresh key appends it. -/
lemma dictInsert_of_not_mem {k : String} {l : List String} (h : k ∉ l) :
    dictInsert k l = l ++ [k] := by
  simp [dictInsert, h]

/-- With the active dict already at or above the thread-pool limit, the
admission loop does nothing. -/
lemma startNextAux_of_full {max : ℕ} {q : List DownloadItem}
    {a : List String} {e : List Event} (h : max ≤ a.length) :
    startNextAux max q a e = (q, a, e) := by
  cases q with
  | nil => rfl
  | cons item rest => simp [startNextAux, Nat.not_lt.mpr h]

/-- Every item left in the queue by the admission loop was in the input
queue. -/
lemma startNextAux_queue_mem {max : ℕ} :
    ∀ (q : List DownloadItem) (a : List String) (e : List Event)
      (x : DownloadItem), x ∈ (startNextAux max q a e).1 → x ∈ q := by
  intro q
  induction q with
  | nil => intro a e x hx; simpa [startNextAux] using hx
  | cons item rest ih =>
    intro a e x hx
    by_cases hlen : a.length < max
    · simp only [startNextAux, if_pos hlen] at hx
      exact List.mem_cons_of_mem _ (ih _ _ _ hx)
    · simp only [startNextAux, if_neg hlen] at hx
      exact hx

/-- The admission loop only appends queue-depth events. -/
lemma startNextAux_events {max : ℕ} :
    ∀ (q : List DownloadItem) (a : List String) (e : List Event),
      ∃ l, (startNextAux max q a e).2.2 = e ++ l ∧
        ∀ ev ∈ l, ∃ n, ev = Event.queueUpdated n := by
  intro q
  induction q with
  | nil => intro a e; exact ⟨[], by simp [startNextAux], by simp⟩
  | cons item rest ih =>
    intro a e
    by_cases hlen : a.length < max
    · obtain ⟨l, hl, hall⟩ :=
        ih (dictInsert item.url a) (e ++ [Event.queueUpdated rest.length])
      refine ⟨Event.queueUpdated rest.length :: l, ?_, ?_⟩
      · simp only [startNextAux, if_pos hlen, hl]; simp
      · intro ev hev
        rcases List.mem_cons.mp hev with h | h
        · exact ⟨rest.length, h⟩
        · exact hall ev h
    · exact ⟨[], by simp [startNextAux, if_neg hlen], by simp⟩

/-- A URL tracked before the admission loop (queued or active) is still
tracked after it. -/
lemma startNextAux_tracked {max : ℕ} :
    ∀ (q : List DownloadItem) (a : List String) (e : List Event)
      (x : String),
      (x ∈ q.map DownloadItem.url ∨ x ∈ a) →
      (x ∈ (startNextAux max q a e).1.map DownloadItem.url ∨
        x ∈ (startNextAux max q a e).2.1) := by
  intro q
  induction q with
  | nil => intro a e x hx; simpa [startNextAux] using hx
  | cons item rest ih =>
    intro a e x hx
    by_cases hlen : a.length < max
    · simp only [startNextAux, if_pos hlen]
      refine ih _ _ x ?_
      rcases hx with hx | hx
      · rcases List.mem_map.mp hx with ⟨it, hit, rfl⟩
        rcases List.mem_cons.mp hit with rfl | hit
        · exact Or.inr (self_mem_dictInsert it.url a)
        · exact Or.inl (List.mem_map.mpr ⟨it, hit, rfl⟩)
      · exact Or.inr (mem_dictInsert_of_mem hx)
    · simp only [startNextAux, if_neg hlen]
      exact hx

/-- The retry loop performs at most `attempt + fuel` attempts in
total. -/
lemma runGo_attempts_le (v : Bool) (o : ℕ → AttemptOutcome) :
    ∀ (fuel attempt : ℕ) (s : List ℕ),
      (runGo v o fuel attempt s).attempts ≤ attempt + fuel := by
  intro fuel
  induction fuel with
  | zero => intro attempt s; simp [runGo]
  | succ f ih =>
    intro attempt s
    simp only [runGo]
    cases o (attempt + 1) with
    | raises =>
      by_cases hf : f = 0
      · subst hf; simp
      · simp only [if_neg hf]
        calc (runGo v o f (attempt + 1) (s ++ [5 * (attempt + 1)])).attempts
            ≤ attempt + 1 + f := ih _ _
          _ = attempt + (f + 1) := by omega
    | emptyOutput =>
      calc (runGo v o f (attempt + 1) s).attempts
          ≤ attempt + 1 + f := ih _ _
        _ = attempt + (f + 1) := by omega
    | ok verifyRaises =>
      by_cases hv : v && verifyRaises
      · simp only [if_pos hv]
        by_cases hf : f = 0 <;> simp [hf]
      · simp only [if_neg hv]; simp

/-! ## Claim C1 -/

/-- Claim C1 states that on a Worker's terminal notification the
Scheduler removes the job from the active-set and admits the next
backlog job.  The slot connected to the worker_finished signal
(MainWindow.on_worker_finished, lines 1764-1767) has body `pass`: it
changes nothing.  Concretely, with the finished worker's URL still
occupying the single concurrency slot and a job waiting in the backlog,
the handler leaves the URL in the active-set and admits nothing. -/
theorem c1_worker_finished_handler_is_noop :
    (∀ url s, onWorkerFinished url s = s) ∧
    (onWorkerFinished urlA
      { queue := [itemOf urlB], active := [urlA], paused := [],
        maxConcurrent := 1, events := [] }).active = [urlA] ∧
    (onWorkerFinished urlA
      { queue := [itemOf urlB], active := [urlA], paused := [],
        maxConcurrent := 1, events := [] }).queue = [itemOf urlB] :=
  ⟨fun _ _ => rfl, rfl, rfl⟩

/-! ## Claim C7 -/

/-- A scheduler snapshot with 2 active downloads, 5 backlog jobs, and a
concurrency limit of 2. -/
def c7State : ManagerState :=
  { queue := [itemOf urlA, itemOf urlB, itemOf urlC,
      itemOf "https://youtube.com/d", itemOf "https://youtube.com/e"],
    active := ["https://youtube.com/x1", "https://youtube.com/x2"],
    paused := [], maxConcurrent := 2, events := [] }

/-- Claim C7 demands that raising the limit from 2 to 5 with 5 backlog
jobs and 2 active immediately admits 3 more.  The settings path
(MainWindow.save_settings line 2344 → DownloadManager.load_settings
lines 998-1000) only stores the new limit: afterwards still exactly 2
jobs are active and all 5 backlog jobs are waiting. -/
theorem c7_counterexample :
    (loadSettings 5 c7State).maxConcurrent = 5 ∧
    (loadSettings 5 c7State).active.length = 2 ∧
    (loadSettings 5 c7State).queue.length = 5 ∧
    (loadSettings 5 c7State).events = [] :=
  ⟨rfl, rfl, rfl, rfl⟩

/-- Claim C7 amended: changing the concurrency limit updates
`maxConcurrent` and nothing else — it never preempts active jobs when
lowered, and it does not admit waiting backlog jobs when raised;
admission only happens at the next operation that runs
start_next_download. -/
theorem c7_set_concurrency_updates_limit_only (n : ℕ) (s : ManagerState) :
    (loadSettings n s).maxConcurrent = n ∧
    (loadSettings n s).active = s.active ∧
    (loadSettings n s).queue = s.queue ∧
    (loadSettings n s).paused = s.paused ∧
    (loadSettings n s).events = s.events :=
  ⟨rfl, rfl, rfl, rfl, rfl⟩

/-! ## Claim C9 -/

/-- Claim C9: on every progress tick processed while downloading and not
cancelled, the stored progress equals
`clamp((bytesDownloaded / max(totalBytes, 1)) * 100, 0, 100)` — hence
lies in `[0, 100]` — and the speed divides the byte delta by an elapsed
time floored at `0.1` seconds, which is nonzero.  Here `bytesDownloaded`
and `totalBytes` are the values the tick stores on the item
(lines 851-852). -/
theorem c9_progress_clamped_and_speed_denominator_floored
    (current : ℤ) (tb est : Option ℤ) (lastBytes : ℤ) (now startTime : ℚ) :
    (updateProgress current tb est lastBytes now startTime).progress =
      min 100 (max 0
        (((updateProgress current tb est lastBytes now startTime).bytesDownloaded : ℚ) /
          ((max (updateProgress current tb est lastBytes now startTime).totalBytes 1 : ℤ) : ℚ) * 100)) ∧
    0 ≤ (updateProgress current tb est lastBytes now startTime).progress ∧
    (updateProgress current tb est lastBytes now startTime).progress ≤ 100 ∧
    (1 / 10 : ℚ) ≤ (updateProgress current tb est lastBytes now startTime).elapsedUsed ∧
    (updateProgress current tb est lastBytes now startTime).elapsedUsed ≠ 0 ∧
    (updateProgress current tb est lastBytes now startTime).speed =
      ((current : ℚ) - (lastBytes : ℚ)) /
        (updateProgress current tb est lastBytes now startTime).elapsedUsed := by
  have htot : 1 ≤ (updateProgress current tb est lastBytes now startTime).totalBytes := by
    unfold updateProgress
    dsimp only
    split <;> omega
  have hmax : max (updateProgress current tb est lastBytes now startTime).totalBytes 1 =
      (updateProgress current tb est lastBytes now startTime).totalBytes :=
    max_eq_left htot
  have helapsed : (1 / 10 : ℚ) ≤
      (updateProgress current tb est lastBytes now startTime).elapsedUsed :=
    le_max_left _ _
  refine ⟨?_, ?_, ?_, helapsed, ?_, rfl⟩
  · rw [hmax]; rfl
  · exact le_min (by norm_num) (le_max_left 0 _)
  · exact min_le_left _ _
  · exact ne_of_gt (lt_of_lt_of_le (by norm_num) helapsed)

/-! ## Claim C8 -/

/-- An empty scheduler with the given concurrency limit. -/
def emptyState (max : ℕ) : ManagerState :=
  { queue := [], active := [], paused := [], maxConcurrent := max,
    events := [] }

/-- Claim C8 says validation accepts exactly the URLs whose lowercased
host, with the `www.` and `m.` prefixes stripped, matches a configured
host pattern.  The code instead tests substring containment after
removing every occurrence of `"www."` and `"m."`:
`"https://notyoutube.com/x"` — whose host matches no configured
pattern — is accepted because `"youtube.com"` occurs inside
`"notyoutube.com"`. -/
theorem c8_counterexample :
    validate_url "https://notyoutube.com/x" = true ∧
    claimed_validate_url "https://notyoutube.com/x" = false := by
  decide

/-- Claim C8 amended: validation accepts a URL iff its scheme parses to
`http` or `https` and some configured domain occurs as a substring of
the lowercased netloc after every occurrence of `"www."` and then of
`"m."` has been removed; and URLs failing this test never enter the
backlog — every queued item after a submission was already queued or
passed validate_url. -/
theorem c8_validate_url_characterisation (url : String) (urls : List String)
    (opts : Options) (s : ManagerState) :
    (validate_url url = true ↔
      ((parseSchemeRest url.data).1 = "http".data ∨
        (parseSchemeRest url.data).1 = "https".data) ∧
      ∃ d ∈ supportedDomains,
        containsSeq d.data (cleanDomain (parseSchemeRest url.data).2) = true) ∧
    (∀ item ∈ (addDownload urls opts s).queue,
      item ∈ s.queue ∨ validate_url item.url = true) := by
  constructor
  · unfold validate_url
    by_cases h : ((parseSchemeRest url.data).1 == "http".data ||
        (parseSchemeRest url.data).1 == "https".data) = true
    · simp only [h, Bool.not_true, Bool.false_eq_true, if_false]
      rw [Bool.or_eq_true, beq_iff_eq, beq_iff_eq] at h
      simp only [h, true_and, List.any_eq_true, supportedDomains,
        List.mem_flatten, List.mem_map]
      constructor
      · rintro ⟨site, hsite, d, hd, hcd⟩
        exact ⟨d, ⟨site.2, ⟨site, hsite, rfl⟩, hd⟩, hcd⟩
      · rintro ⟨d, ⟨l, ⟨site, hsite, rfl⟩, hd⟩, hcd⟩
        exact ⟨site, hsite, d, hd, hcd⟩
    · simp only [Bool.not_eq_true] at h
      simp only [h, Bool.not_false, if_true]
      simp only [Bool.false_eq_true, false_iff, not_and]
      rw [Bool.or_eq_false_iff] at h
      rintro (hs | hs) -
      · rw [hs] at h; simp at h
      · rw [hs] at h; simp at h
  · intro item hitem
    have hq : item ∈ s.queue ++
        (urls.filter validate_url).map
          (fun u => ({ url := u, options := opts } : DownloadItem)) :=
      @startNextAux_queue_mem s.maxConcurrent
        (s.queue ++ (urls.filter validate_url).map
          (fun u => ({ url := u, options := opts } : DownloadItem)))
        s.active s.events item hitem
    rcases List.mem_append.mp hq with hmem | hmem
    · exact Or.inl hmem
    · rcases List.mem_map.mp hmem with ⟨u, hu, rfl⟩
      exact Or.inr (List.mem_filter.mp hu).2

/-- Witness for the amended C8 at concrete inputs: `urlA` is accepted
(via the characterisation applied right-to-left), and a queued item
survives a full-capacity submission only through the stated
disjunction. -/
theorem c8_characterisation_witness :
    validate_url urlA = true ∧
    (itemOf urlA ∈
        ({ queue := [itemOf urlA], active := [urlB], paused := [],
           maxConcurrent := 1, events := [] } : ManagerState).queue ∨
      validate_url (itemOf urlA).url = true) := by
  have h := c8_validate_url_characterisation urlA []
    optsD
    { queue := [itemOf urlA], active := [urlB], paused := [],
      maxConcurrent := 1, events := [] }
  refine ⟨h.1.mpr ⟨Or.inr (by decide), "youtube.com", by decide, by decide⟩, ?_⟩
  exact h.2 (itemOf urlA) (by decide)

/-! ## Claim C2 -/

/-- Claim C2 says re-submitting a tracked URL is a no-op or rejected.
With `urlA` admitted and active (limit 1), submitting `urlA` again
appends a second job for the same URL to the backlog while the first is
still active, and emits only queue-depth events — a silent duplicate. -/
theorem c2_counterexample :
    urlA ∈ (addDownload [urlA] optsD (emptyState 1)).active ∧
    (addDownload [urlA] optsD
        (addDownload [urlA] optsD (emptyState 1))).queue = [itemOf urlA] ∧
    (addDownload [urlA] optsD
        (addDownload [urlA] optsD (emptyState 1))).active = [urlA] ∧
    (addDownload [urlA] optsD
        (addDownload [urlA] optsD (emptyState 1))).events =
      [.queueUpdated 0, .queueUpdated 0, .queueUpdated 1] := by
  decide

/-- Claim C2 amended: submission performs no duplicate check — with the
active-set at capacity, submitting any URL that passes validation
(tracked or not) appends a fresh job for it to the backlog, leaving
active and paused untouched. -/
theorem c2_resubmission_appends_duplicate (s : ManagerState) (url : String)
    (opts : Options) (hv : validate_url url = true)
    (hfull : s.maxConcurrent ≤ s.active.length) :
    (addDownload [url] opts s).queue =
      s.queue ++ [{ url := url, options := opts }] ∧
    (addDownload [url] opts s).active = s.active ∧
    (addDownload [url] opts s).paused = s.paused := by
  have hfilter : [url].filter validate_url = [url] := by
    simp [List.filter, hv]
  unfold addDownload startNext
  rw [hfilter]
  dsimp only
  rw [startNextAux_of_full hfull]
  simp

/-- Witness for the amended C2: with `urlA` already the sole active
download at limit 1, re-submitting `urlA` appends a duplicate backlog
job. -/
theorem c2_resubmission_appends_duplicate_witness :
    (addDownload [urlA] optsD
        { queue := [], active := [urlA], paused := [], maxConcurrent := 1,
          events := [] }).queue = [{ url := urlA, options := optsD }] := by
  have h := c2_resubmission_appends_duplicate
    { queue := [], active := [urlA], paused := [], maxConcurrent := 1,
      events := [] }
    urlA optsD (by decide) (by decide)
  simpa using h.1

/-! ## Claim C3 -/

/-- Claim C3 says a malformed URL in a batch yields exactly one
rejection report.  Submitting a malformed URL alongside two valid ones
enqueues the two valid jobs (both admitted here) but produces no
rejection report at all: the emitted events are queue-depth
notifications only, and none mentions the rejected URL. -/
theorem c3_counterexample :
    (addDownload ["notaurl", urlA, urlB] optsD (emptyState 5)).active =
      [urlA, urlB] ∧
    (addDownload ["notaurl", urlA, urlB] optsD (emptyState 5)).queue = [] ∧
    (addDownload ["notaurl", urlA, urlB] optsD (emptyState 5)).events =
      [.queueUpdated 1, .queueUpdated 0, .queueUpdated 0] := by
  decide

/-- Claim C3 amended: batch submission is not all-or-nothing — every
valid URL of the batch is tracked afterwards (queued or active) — but
invalid URLs are silently dropped: the submission emits only queue-depth
events, so no per-URL rejection report exists. -/
theorem c3_valid_urls_proceed_invalid_silently_dropped
    (urls : List String) (opts : Options) (s : ManagerState) :
    (∀ u ∈ urls, validate_url u = true →
      u ∈ (addDownload urls opts s).queue.map DownloadItem.url ∨
        u ∈ (addDownload urls opts s).active) ∧
    ∃ l, (addDownload urls opts s).events = s.events ++ l ∧
      ∀ ev ∈ l, ∃ n, ev = Event.queueUpdated n := by
  constructor
  · intro u hu hv
    have hstart : u ∈ (s.queue ++ (urls.filter validate_url).map
          (fun v => ({ url := v, options := opts } : DownloadItem))).map
            DownloadItem.url ∨ u ∈ s.active := by
      left
      refine List.mem_map.mpr ⟨{ url := u, options := opts }, ?_, rfl⟩
      exact List.mem_append_right _
        (List.mem_map.mpr ⟨u, List.mem_filter.mpr ⟨hu, hv⟩, rfl⟩)
    exact @startNextAux_tracked s.maxConcurrent
      (s.queue ++ (urls.filter validate_url).map
        (fun v => ({ url := v, options := opts } : DownloadItem)))
      s.active s.events u hstart
  · obtain ⟨l, hl, hall⟩ := @startNextAux_events s.maxConcurrent
      (s.queue ++ (urls.filter validate_url).map
        (fun v => ({ url := v, options := opts } : DownloadItem)))
      s.active s.events
    refine ⟨l ++ [Event.queueUpdated
      ((startNextAux s.maxConcurrent
        (s.queue ++ (urls.filter validate_url).map
          (fun v => ({ url := v, options := opts } : DownloadItem)))
        s.active s.events).1.length)], ?_, ?_⟩
    · show (startNextAux s.maxConcurrent
          (s.queue ++ (urls.filter validate_url).map
            (fun v => ({ url := v, options := opts } : DownloadItem)))
          s.active s.events).2.2 ++ [Event.queueUpdated _] = _
      rw [hl, List.append_assoc]
      rfl
    · intro ev hev
      rcases List.mem_append.mp hev with h | h
      · exact hall ev h
      · exact ⟨_, List.mem_singleton.mp h⟩

/-- Witness for the amended C3 at a concrete batch: the valid `urlA`
submitted next to a malformed URL is tracked afterwards, and the
submission appended only queue-depth events. -/
theorem c3_valid_urls_proceed_witness :
    (urlA ∈ (addDownload ["notaurl", urlA] optsD
        (emptyState 1)).queue.map DownloadItem.url ∨
      urlA ∈ (addDownload ["notaurl", urlA] optsD (emptyState 1)).active) ∧
    ∃ l, (addDownload ["notaurl", urlA] optsD (emptyState 1)).events =
        (emptyState 1).events ++ l ∧
      ∀ ev ∈ l, ∃ n, ev = Event.queueUpdated n := by
  have h := c3_valid_urls_proceed_invalid_silently_dropped
    ["notaurl", urlA] optsD (emptyState 1)
  exact ⟨h.1 urlA (by decide) (by decide), h.2⟩

/-! ## Claim C4 -/

/-- Claim C4 says the worker sleeps `backoffBase * attemptNumber`
between failed attempts.  The sleep (line 760) sits only in the
exception handler: an attempt that fails because the downloaded file is
missing or empty (line 741 test false, line 753-754) retries
immediately.  Here attempt 1 fails that way, attempt 2 runs and
succeeds, and no sleep at all occurred. -/
theorem c4_counterexample :
    (runWorker false fun n =>
      if n = 1 then .emptyOutput else .ok false).attempts = 2 ∧
    (runWorker false fun n =>
      if n = 1 then .emptyOutput else .ok false).sleeps = [] ∧
    (runWorker false fun n =>
      if n = 1 then .emptyOutput else .ok false).status = .completed := by
  decide

/-- Claim C4 amended: at most 3 attempts are made; between attempts that
failed by raising, the worker sleeps `5 * attemptNumber` (linear backoff
with base 5); an attempt that failed through a missing/empty output
retries immediately with no backoff sleep; two raised failures followed
by a success end completed with no error surfaced, and three raised
failures end in error. -/
theorem c4_retry_budget_and_linear_backoff (v : Bool)
    (o : ℕ → AttemptOutcome) :
    (runWorker v o).attempts ≤ 3 ∧
    (o 1 = .raises → o 2 = .ok false →
      runWorker v o =
        { status := .completed, completeEmitted := true,
          errorEmitted := false, finishedEmitted := true, sleeps := [5],
          attempts := 2 }) ∧
    (o 1 = .raises → o 2 = .raises → o 3 = .ok false →
      runWorker v o =
        { status := .completed, completeEmitted := true,
          errorEmitted := false, finishedEmitted := true, sleeps := [5, 10],
          attempts := 3 }) ∧
    (o 1 = .raises → o 2 = .raises → o 3 = .raises →
      runWorker v o =
        { status := .error, completeEmitted := false,
          errorEmitted := true, finishedEmitted := true, sleeps := [5, 10],
          attempts := 3 }) ∧
    (o 1 = .emptyOutput → o 2 = .ok false →
      runWorker v o =
        { status := .completed, completeEmitted := true,
          errorEmitted := false, finishedEmitted := true, sleeps := [],
          attempts := 2 }) := by
  refine ⟨?_, ?_, ?_, ?_, ?_⟩
  · simpa [maxAttempts] using runGo_attempts_le v o 3 0 []
  · intro h1 h2
    simp [runWorker, maxAttempts, runGo, h1, h2]
  · intro h1 h2 h3
    simp [runWorker, maxAttempts, runGo, h1, h2, h3]
  · intro h1 h2 h3
    simp [runWorker, maxAttempts, runGo, h1, h2, h3]
  · intro h1 h2
    simp [runWorker, maxAttempts, runGo, h1, h2]

/-- Witness for the amended C4: the fail-fail-succeed and
fail-fail-fail oracles, evaluated through the theorem. -/
theorem c4_retry_budget_witness :
    runWorker false (fun n => if n ≤ 2 then .raises else .ok false) =
      { status := .completed, completeEmitted := true,
        errorEmitted := false, finishedEmitted := true, sleeps := [5, 10],
        attempts := 3 } ∧
    runWorker false (fun _ => .raises) =
      { status := .error, completeEmitted := false, errorEmitted := true,
        finishedEmitted := true, sleeps := [5, 10], attempts := 3 } := by
  have h1 := c4_retry_budget_and_linear_backoff false
    (fun n => if n ≤ 2 then .raises else .ok false)
  have h2 := c4_retry_budget_and_linear_backoff false (fun _ => .raises)
  exact ⟨h1.2.2.1 (by decide) (by decide) (by decide),
    h2.2.2.2.1 (by decide) (by decide) (by decide)⟩

/-! ## Claim C5 -/

/-- Claim C5 says a post-download verify failure downgrades a completed
job to error regardless of the attempt on which the transfer succeeded.
When the success happens on attempt 1 (of 3), the exception raised by
`_verify_download` (line 752) is caught by the retry handler
(line 756), which does not re-raise because this was not the last
attempt: the job stays completed, no error is surfaced. -/
theorem c5_counterexample :
    (runWorker true fun _ => .ok true).status = .completed ∧
    (runWorker true fun _ => .ok true).errorEmitted = false ∧
    (runWorker true fun _ => .ok true).completeEmitted = true ∧
    (runWorker true fun _ => .ok true).attempts = 1 := by
  decide

/-- Claim C5 amended: with verify enabled, a verify failure downgrades
the completed job to error — surfacing both the completion and the
error — only when the successful transfer happened on the final (third)
attempt; when it happens on attempt 1 or 2 the verify exception is
swallowed by the retry handler (only a pointless backoff sleep occurs)
and the job remains completed with no error surfaced. -/
theorem c5_verify_downgrade_only_on_final_attempt (o : ℕ → AttemptOutcome) :
    (o 1 = .ok true →
      runWorker true o =
        { status := .completed, completeEmitted := true,
          errorEmitted := false, finishedEmitted := true, sleeps := [5],
          attempts := 1 }) ∧
    (o 1 = .raises → o 2 = .ok true →
      runWorker true o =
        { status := .completed, completeEmitted := true,
          errorEmitted := false, finishedEmitted := true, sleeps := [5, 10],
          attempts := 2 }) ∧
    (o 1 = .raises → o 2 = .raises → o 3 = .ok true →
      runWorker true o =
        { status := .error, completeEmitted := true,
          errorEmitted := true, finishedEmitted := true, sleeps := [5, 10],
          attempts := 3 }) := by
  refine ⟨?_, ?_, ?_⟩
  · intro h1
    simp [runWorker, maxAttempts, runGo, h1]
  · intro h1 h2
    simp [runWorker, maxAttempts, runGo, h1, h2]
  · intro h1 h2 h3
    simp [runWorker, maxAttempts, runGo, h1, h2, h3]

/-- Witness for the amended C5: success-with-bad-file on attempt 1
versus on attempt 3, evaluated through the theorem. -/
theorem c5_verify_downgrade_witness :
    runWorker true (fun _ => .ok true) =
      { status := .completed, completeEmitted := true,
        errorEmitted := false, finishedEmitted := true, sleeps := [5],
        attempts := 1 } ∧
    runWorker true (fun n => if n ≤ 2 then .raises else .ok true) =
      { status := .error, completeEmitted := true, errorEmitted := true,
        finishedEmitted := true, sleeps := [5, 10], attempts := 3 } := by
  have h1 := c5_verify_downgrade_only_on_final_attempt (fun _ => .ok true)
  have h2 := c5_verify_downgrade_only_on_final_attempt
    (fun n => if n ≤ 2 then .raises else .ok true)
  exact ⟨h1.1 (by decide),
    h2.2.2 (by decide) (by decide) (by decide)⟩

/-! ## Claim C6 -/

/-- A scheduler snapshot at capacity 2 with `urlA`, `urlB` active and
`urlC` paused. -/
def c6State : ManagerState :=
  { queue := [], active := [urlA, urlB], paused := [urlC],
    maxConcurrent := 2, events := [] }

/-- Claim C6 says resuming at capacity pushes the resumed job to the
backlog head and affects no other active job.  The code
(resume_download, lines 1041-1050) instead moves the resumed job into
the active-set and force-pauses the first-inserted active job: here
`urlC` becomes active, `urlA` is paused, and the backlog stays empty. -/
theorem c6_counterexample :
    (resumeDownload urlC c6State).active = [urlB, urlC] ∧
    (resumeDownload urlC c6State).paused = [urlA] ∧
    (resumeDownload urlC c6State).queue = [] ∧
    (resumeDownload urlC c6State).events =
      [.downloadResumed urlC, .downloadPaused urlA] := by
  decide

/-- Claim C6 amended: resuming a paused job while the active-set is at
capacity moves the resumed job into the active-set and force-pauses the
first-inserted active job to restore the bound; the backlog is not
involved. -/
theorem c6_resume_at_capacity_force_pauses_first_active
    (s : ManagerState) (url a : String) (rest : List String)
    (hpaused : url ∈ s.paused) (hnotactive : url ∉ s.active)
    (hactive : s.active = a :: rest) (hcap : s.active.length = s.maxConcurrent) :
    (resumeDownload url s).active = rest ++ [url] ∧
    (resumeDownload url s).paused = dictInsert a (s.paused.erase url) ∧
    (resumeDownload url s).queue = s.queue := by
  have hins : dictInsert url s.active = s.active ++ [url] :=
    dictInsert_of_not_mem hnotactive
  have hlen : s.maxConcurrent < (dictInsert url s.active).length := by
    rw [hins]
    simp [← hcap]
  unfold resumeDownload
  rw [if_pos hpaused]
  dsimp only
  rw [if_pos hlen]
  rw [hins, hactive]
  dsimp only [List.cons_append]
  have hamem : a ∈ (a :: (rest ++ [url])) := List.mem_cons_self a _
  unfold pauseDownload
  rw [if_pos hamem]
  unfold startNext
  dsimp only
  rw [List.erase_cons_head]
  have hfull : s.maxConcurrent ≤ (rest ++ [url]).length := by
    have : (a :: rest).length = s.maxConcurrent := by rw [← hactive, hcap]
    simp at this
    simp [← this]
  rw [startNextAux_of_full hfull]
  exact ⟨rfl, rfl, rfl⟩

/-- Witness for the amended C6: the concrete at-capacity snapshot,
resolved through the theorem. -/
theorem c6_resume_at_capacity_witness :
    (resumeDownload urlC c6State).active = [urlB] ++ [urlC] ∧
    (resumeDownload urlC c6State).paused =
      dictInsert urlA (c6State.paused.erase urlC) ∧
    (resumeDownload urlC c6State).queue = c6State.queue := by
  exact c6_resume_at_capacity_force_pauses_first_active c6State urlC urlA
    [urlB] (by decide) (by decide) (by decide) (by decide)

/-! ## Claim C10 -/

/-- Claim C10: cancelling an active job removes it and immediately
admits the backlog head into the freed slot (cancel_download lines
1054-1057 call start_next_download), while cancelling a paused job
removes it with no admission at all (lines 1058-1060), leaving the
active-set and the backlog unchanged even when a slot is notionally
free and jobs are waiting. -/
theorem c10_cancel_admission_asymmetry (s : ManagerState) (url : String) :
    (url ∈ s.paused → url ∉ s.active → (∀ item ∈ s.queue, item.url ≠ url) →
      (cancelDownload url s).active = s.active ∧
      (cancelDownload url s).queue = s.queue ∧
      (cancelDownload url s).paused = s.paused.erase url ∧
      (cancelDownload url s).events =
        s.events ++ [.downloadCancelled url, .queueUpdated s.queue.length]) ∧
    (∀ j qrest, url ∈ s.active → s.queue = j :: qrest →
      s.active.length = s.maxConcurrent → j.url ∉ s.active →
      (cancelDownload url s).active = s.active.erase url ++ [j.url] ∧
      (cancelDownload url s).queue = qrest.filter (fun it => it.url ≠ url)) := by
  constructor
  · intro hpaused hnotactive hqueue
    have hfilter : s.queue.filter (fun it => it.url ≠ url) = s.queue :=
      List.filter_eq_self.mpr fun item hitem =>
        decide_eq_true (hqueue item hitem)
    unfold cancelDownload
    rw [if_neg hnotactive, if_pos hpaused]
    dsimp only
    rw [hfilter]
    refine ⟨rfl, rfl, rfl, ?_⟩
    simp
  · intro j qrest hactive hqueue hcap hjfresh
    have hmax : 1 ≤ s.maxConcurrent := by
      have : 0 < s.active.length :=
        List.length_pos.mpr (List.ne_nil_of_mem hactive)
      omega
    have herase_len : (s.active.erase url).length = s.maxConcurrent - 1 := by
      rw [List.length_erase_of_mem hactive, hcap]
    have hlt : (s.active.erase url).length < s.maxConcurrent := by
      omega
    have hjfresh2 : j.url ∉ s.active.erase url := fun hmem =>
      hjfresh (List.erase_subset _ _ hmem)
    have hins : dictInsert j.url (s.active.erase url) =
        s.active.erase url ++ [j.url] := dictInsert_of_not_mem hjfresh2
    have hfull : s.maxConcurrent ≤
        (dictInsert j.url (s.active.erase url)).length := by
      rw [hins]
      simp [herase_len]
      omega
    unfold cancelDownload
    rw [if_pos hactive]
    unfold startNext
    dsimp only
    rw [hqueue]
    rw [show startNextAux s.maxConcurrent (j :: qrest) (s.active.erase url)
          (s.events ++ [Event.downloadCancelled url]) =
        startNextAux s.maxConcurrent qrest
          (dictInsert j.url (s.active.erase url))
          ((s.events ++ [Event.downloadCancelled url]) ++
            [Event.queueUpdated qrest.length])
      from by rw [startNextAux]; rw [if_pos hlt]]
    rw [startNextAux_of_full hfull]
    rw [hins]
    exact ⟨rfl, rfl⟩

/-- Witness for C10: a paused cancel that admits nothing despite a free
slot and waiting work, and an active cancel that admits the backlog
head, both through the theorem. -/
theorem c10_cancel_admission_asymmetry_witness :
    ((cancelDownload urlC
        { queue := [itemOf urlA], active := [], paused := [urlC],
          maxConcurrent := 2, events := [] }).active = [] ∧
      (cancelDownload urlC
        { queue := [itemOf urlA], active := [], paused := [urlC],
          maxConcurrent := 2, events := [] }).queue = [itemOf urlA] ∧
      (cancelDownload urlC
        { queue := [itemOf urlA], active := [], paused := [urlC],
          maxConcurrent := 2, events := [] }).paused = [urlC].erase urlC ∧
      (cancelDownload urlC
        { queue := [itemOf urlA], active := [], paused := [urlC],
          maxConcurrent := 2, events := [] }).events =
        [] ++ [.downloadCancelled urlC, .queueUpdated 1]) ∧
    ((cancelDownload urlB
        { queue := [itemOf urlA], active := [urlB], paused := [],
          maxConcurrent := 1, events := [] }).active =
      [urlB].erase urlB ++ [(itemOf urlA).url] ∧
      (cancelDownload urlB
        { queue := [itemOf urlA], active := [urlB], paused := [],
          maxConcurrent := 1, events := [] }).queue =
        List.filter (fun it => it.url ≠ urlB) []) := by
  constructor
  · exact (c10_cancel_admission_asymmetry
      { queue := [itemOf urlA], active := [], paused := [urlC],
        maxConcurrent := 2, events := [] } urlC).1
      (by decide) (by decide) (by decide)
  · exact (c10_cancel_admission_asymmetry
      { queue := [itemOf urlA], active := [urlB], paused := [],
        maxConcurrent := 1, events := [] } urlB).2
      (itemOf urlA) [] (by decide) rfl (by decide) (by decide)

end FireDownload
